import Mathlib

/-!
Shallow embedding of `server.py` (kopchik/interview_gingerpayments): a small
REST backend over three entities (Person, Group, AddressBook) persisted in a
relational store (Pony ORM over sqlite), with a generic router
(`OhMyRestRouter`), a recursive serializer (`my_dict`), two query endpoints
(`find_by_name`, `find_by_email`) and an error middleware.

Modelling choices, mirroring the source and the store's semantics:
  * Entities live in per-type row tables keyed by the store-assigned numeric
    id; the three many-to-many relations are link tables of id pairs, exactly
    as the relational store keeps them (Pony `Set` attributes).
  * Python/JSON values that flow through handlers are the inductive `PVal`.
  * Each handler body runs inside `with db_session`: on an exception the
    session rolls back, modelled by `runSession` which keeps the original
    store when the handler fails.
  * Exceptions are modelled by `Except ErrK`; `ErrK` names the spec's error
    taxonomy and each raise site is annotated with the Python exception it
    models.
-/

namespace Server

/-- The three entity types registered with `OhMyRestRouter` in `setup_app`. -/
inductive Table where
  | person
  | group
  | book
deriving DecidableEq

/-- Python/JSON values flowing through the handlers: JSON scalars, lists and
dicts, plus live entity instances (a reference `entity t i` into the store,
so that cyclic relationship graphs are representable). -/
inductive PVal where
  | vnull
  | vstr (s : String)
  | vint (n : Int)
  | vlist (xs : List PVal)
  | vdict (kvs : List (String × PVal))
  | entity (t : Table) (id : Nat)

/-- Row of the `Person` table: `fname`/`lname` are `Required(str, 255)` with a
composite key on the pair, `emails` is a `Required(Json)` list of strings. -/
structure PersonRec where
  fname : String
  lname : String
  emails : List String
deriving DecidableEq

/-- Row of the `Group` table: `name` is `Required(str, 255, unique=True)`. -/
structure GroupRec where
  name : String
deriving DecidableEq

/-- Row of the `AddressBook` table: `name` is `Required(str, 255, unique=True)`. -/
structure BookRec where
  name : String
deriving DecidableEq

/-- The relational store: one row table per entity type (keyed by the numeric
id the store assigns from the `next*` counters) and one link table per
many-to-many relation (`Person.groups`/`Group.members`,
`Person.address_books`/`AddressBook.people`,
`Group.address_books`/`AddressBook.groups`). -/
structure DB where
  persons : List (Nat × PersonRec)
  groups : List (Nat × GroupRec)
  books : List (Nat × BookRec)
  personGroup : List (Nat × Nat)
  personBook : List (Nat × Nat)
  groupBook : List (Nat × Nat)
  nextPerson : Nat
  nextGroup : Nat
  nextBook : Nat
deriving DecidableEq

/-- Look up a row by primary key. -/
def lookupRow {α : Type} (rows : List (Nat × α)) (i : Nat) : Option α :=
  (rows.find? (fun r => r.1 == i)).map (fun r => r.2)

/-- Does `Model[id]` succeed (Pony raises `ObjectNotFound` otherwise)? -/
def rowExists (db : DB) : Table → Nat → Bool
  | .person, i => (lookupRow db.persons i).isSome
  | .group, i => (lookupRow db.groups i).isSome
  | .book, i => (lookupRow db.books i).isSome

/-- Members of a link table whose left component is `i`, reading the relation
left-to-right. -/
def colA (links : List (Nat × Nat)) (i : Nat) : List Nat :=
  (links.filter (fun l => l.1 == i)).map (fun l => l.2)

/-- Members of a link table whose right component is `i`, reading the relation
right-to-left. -/
def colB (links : List (Nat × Nat)) (i : Nat) : List Nat :=
  (links.filter (fun l => l.2 == i)).map (fun l => l.1)

/-- The declared `Set(...)` relationship fields of each entity class, with the
related entity type (`Person.groups`, `Person.address_books`,
`Group.members`, `Group.address_books`, `AddressBook.people`,
`AddressBook.groups`). -/
def setFields : Table → List (String × Table)
  | .person => [("groups", .group), ("address_books", .book)]
  | .group => [("members", .person), ("address_books", .book)]
  | .book => [("people", .person), ("groups", .group)]

/-- The collection stored under a relationship field of entity `i`, as the
list of related ids, derived from the link tables. -/
def collectionOf (db : DB) : Table → Nat → String → List Nat
  | .person, i, "groups" => colA db.personGroup i
  | .person, i, "address_books" => colA db.personBook i
  | .group, g, "members" => colB db.personGroup g
  | .group, g, "address_books" => colA db.groupBook g
  | .book, b, "people" => colB db.personBook b
  | .book, b, "groups" => colB db.groupBook b
  | _, _, _ => []

/-- Pony `Entity.to_dict(with_collections=...)` with the source's default
`related_objects=False`: the primary key and the scalar attributes, in
declaration order, and — only when `with_collections` is set — each `Set`
attribute as the list of the related entities' primary keys (Pony renders
related objects by primary key unless `related_objects=True`, which the
source never passes). Handlers call it only on existing ids. -/
def to_dict (db : DB) (t : Table) (i : Nat) (with_collections : Bool) :
    List (String × PVal) :=
  match t with
  | .person =>
    match lookupRow db.persons i with
    | none => []
    | some p =>
      [("id", .vint i), ("fname", .vstr p.fname), ("lname", .vstr p.lname),
       ("emails", .vlist (p.emails.map PVal.vstr))] ++
      (if with_collections then
        [("groups", .vlist ((colA db.personGroup i).map (fun n => PVal.vint n))),
         ("address_books", .vlist ((colA db.personBook i).map (fun n => PVal.vint n)))]
      else [])
  | .group =>
    match lookupRow db.groups i with
    | none => []
    | some g =>
      [("id", .vint i), ("name", .vstr g.name)] ++
      (if with_collections then
        [("members", .vlist ((colB db.personGroup i).map (fun n => PVal.vint n))),
         ("address_books", .vlist ((colA db.groupBook i).map (fun n => PVal.vint n)))]
      else [])
  | .book =>
    match lookupRow db.books i with
    | none => []
    | some b =>
      [("id", .vint i), ("name", .vstr b.name)] ++
      (if with_collections then
        [("people", .vlist ((colB db.personBook i).map (fun n => PVal.vint n))),
         ("groups", .vlist ((colB db.groupBook i).map (fun n => PVal.vint n)))]
      else [])

mutual

/-- The recursive serializer `my_dict` of `server.py`: an entity instance
becomes `e.to_dict()` (its scalar-field dictionary, no recursion into it), a
list or dict is serialized elementwise, anything else passes through. -/
def my_dict (db : DB) : PVal → PVal
  | .entity t i => .vdict (to_dict db t i false)
  | .vlist xs => .vlist (my_dictList db xs)
  | .vdict kvs => .vdict (my_dictPairs db kvs)
  | .vstr s => .vstr s
  | .vint n => .vint n
  | .vnull => .vnull

/-- Elementwise `my_dict` over a Python list (the comprehension in the
`isinstance(e, list)` branch). -/
def my_dictList (db : DB) : List PVal → List PVal
  | [] => []
  | x :: xs => my_dict db x :: my_dictList db xs

/-- Valuewise `my_dict` over a Python dict (the comprehension in the
`isinstance(e, dict)` branch). -/
def my_dictPairs (db : DB) : List (String × PVal) → List (String × PVal)
  | [] => []
  | (k, v) :: kvs => (k, my_dict db v) :: my_dictPairs db kvs

end

/-- Error taxonomy of the spec; each constructor is raised at the commented
site of the source. `invalidField` covers both `Error("no such field: ...")`
and the `AssertionError` of `assert isinstance(field, Set)`;
`validationError` covers Pony's rejection of a constructor argument
(`ValueError` from `py_check`/length/`Required`) and the store's uniqueness
violations on flush; `notFound` is Pony's `ObjectNotFound` from `Model[id]`;
`badRequest` covers the missing-parameter `AssertionError`/`KeyError` of the
query endpoints and the `KeyError` on a body without an `id`. -/
inductive ErrK where
  | notFound
  | invalidField
  | validationError
  | badRequest
deriving DecidableEq

/-- Transaction scoping of `with db_session`: a handler that raises rolls the
session back, so the store visible afterwards is the original one; a handler
that returns commits its updated store. -/
def runSession {R : Type} (db : DB) (act : Except ErrK (DB × R)) :
    DB × Except ErrK R :=
  match act with
  | .ok (db', r) => (db', .ok r)
  | .error e => (db, .error e)

/-- Handler `OhMyRestRouter.get`: load the instance (`ObjectNotFound` when the
id is absent), take `to_dict(with_collections=True)` and serialize it with
`my_dict`. -/
def getEntity (db : DB) (t : Table) (i : Nat) : Except ErrK PVal :=
  if rowExists db t i then .ok (my_dict db (.vdict (to_dict db t i true)))
  else .error .notFound

/-- Modelled from the spec: the external `validate_email` library performs a
basic syntactic check of the local-part@domain-with-dot shape (no DNS or
mailbox verification). -/
def validate_email (s : String) : Bool :=
  match s.splitOn "@" with
  | [lp, dom] => lp ≠ "" && dom ≠ "" && dom.contains '.'
  | _ => false

/-- The Json value of the `emails` key of a Person body, and whether each
element of a list body is a wellformed email string (a non-string element
makes the external check fail). -/
def emailElemOk : PVal → Bool
  | .vstr s => validate_email s
  | _ => false

/-- `validate_emails` of `server.py`, the `py_check` of `Person.emails`:
reject a non-list, a list shorter than 1 or longer than 10, and any element
failing the syntactic email check. -/
def validate_emails (emails : PVal) : Bool :=
  match emails with
  | .vlist xs =>
    if xs.length < 1 then false
    else if xs.length > 10 then false
    else xs.all emailElemOk
  | _ => false

/-- JSON body of a Person `Create` (`PUT /person`), each declared field
optional so that a missing key is representable. Names are JSON strings;
`emails` is an arbitrary JSON value so that a non-list is representable. -/
structure PersonBody where
  fname : Option String
  lname : Option String
  emails : Option PVal

/-- The string elements of a JSON list (exact when `validate_emails` holds,
since every element is then a string). -/
def emailStrings : PVal → List String
  | .vlist xs => xs.filterMap (fun e => match e with | .vstr s => some s | _ => none)
  | _ => []

/-- Constraints a Person `Create` must satisfy (section 4.3 of the spec):
`fname`/`lname` present, non-empty and at most 255 characters (Pony
`Required(str, max_name_len)`); `emails` present and passing
`validate_emails` (the `py_check`); and the composite key (fname, lname)
unique across the stored Persons. -/
def personConstraintsOk (db : DB) (b : PersonBody) : Bool :=
  (match b.fname with | some f => !(f == "") && f.length ≤ 255 | none => false) &&
  (match b.lname with | some l => !(l == "") && l.length ≤ 255 | none => false) &&
  (match b.emails with | some em => validate_emails em | none => false) &&
  !(db.persons.any (fun r => (some r.2.fname == b.fname) && (some r.2.lname == b.lname)))

/-- Handler `OhMyRestRouter.put` for `Person`: `Person(**json_data)` validates
every constraint (a missing `Required` argument, an over-long or empty name,
a failing `py_check` raise `ValueError`; a duplicate composite key raises on
`flush`) before anything is persisted; on success the new row is inserted
under the next id and the response is `instance.to_dict(with_collections=True)`
— note, without `my_dict`. -/
def createPerson (db : DB) (b : PersonBody) : Except ErrK (DB × PVal) :=
  match b.fname, b.lname, b.emails with
  | some f, some l, some em =>
    if f == "" || 255 < f.length then .error .validationError
    else if l == "" || 255 < l.length then .error .validationError
    else if !validate_emails em then .error .validationError
    else if db.persons.any (fun r => (r.2.fname == f) && (r.2.lname == l)) then
      .error .validationError
    else
      let i := db.nextPerson
      let db' := { db with persons := db.persons ++ [(i, ⟨f, l, emailStrings em⟩)],
                           nextPerson := i + 1 }
      .ok (db', .vdict (to_dict db' .person i true))
  | _, _, _ => .error .validationError

/-- JSON body of an `AddToCollection` request; `json_data['id']` raises
`KeyError` when the key is absent. -/
structure AddBody where
  id : Option Nat

/-- Insert a link row unless it is already present: Pony `Set.add` of an
already-present member is a no-op, and the link table never holds duplicate
rows. -/
def addPair (links : List (Nat × Nat)) (p : Nat × Nat) : List (Nat × Nat) :=
  if p ∈ links then links else links ++ [p]

/-- Apply `collection.add(item)` for parent `i` of type `t` under relationship
field `field`: the pair goes into the link table of that relation, oriented
the way the table is kept. -/
def addLink (db : DB) (t : Table) (field : String) (i itemId : Nat) : DB :=
  match t, field with
  | .person, "groups" => { db with personGroup := addPair db.personGroup (i, itemId) }
  | .person, "address_books" => { db with personBook := addPair db.personBook (i, itemId) }
  | .group, "members" => { db with personGroup := addPair db.personGroup (itemId, i) }
  | .group, "address_books" => { db with groupBook := addPair db.groupBook (i, itemId) }
  | .book, "people" => { db with personBook := addPair db.personBook (itemId, i) }
  | .book, "groups" => { db with groupBook := addPair db.groupBook (itemId, i) }
  | _, _ => db

/-- Handler `OhMyRestRouter.add`, in the source's order: the field must be a
declared `Set` attribute (`Error` when `hasattr` fails, `AssertionError` when
the attribute is not a `Set`; both modelled as `invalidField`); the body must
carry an `id` (`KeyError` otherwise); then, inside the session, the parent and
the item are loaded (`ObjectNotFound`, i.e. `notFound`, when either id is
absent), the item is added to the collection and the updated parent is
returned serialized like `get`. -/
def addToCollection (db : DB) (t : Table) (i : Nat) (field : String)
    (body : AddBody) : Except ErrK (DB × PVal) :=
  match (setFields t).lookup field with
  | none => .error .invalidField
  | some itemT =>
    match body.id with
    | none => .error .badRequest
    | some itemId =>
      if !rowExists db t i then .error .notFound
      else if !rowExists db itemT itemId then .error .notFound
      else
        let db' := addLink db t field i itemId
        .ok (db', my_dict db' (.vdict (to_dict db' t i true)))

/-- Effect of Pony `Entity.delete()`: the row disappears and every link-table
row referencing the entity is cleared (the store clears the many-to-many
rows; related entities themselves survive). -/
def removeEntity (db : DB) (t : Table) (i : Nat) : DB :=
  match t with
  | .person =>
    { db with persons := db.persons.filter (fun r => !(r.1 == i)),
              personGroup := db.personGroup.filter (fun l => !(l.1 == i)),
              personBook := db.personBook.filter (fun l => !(l.1 == i)) }
  | .group =>
    { db with groups := db.groups.filter (fun r => !(r.1 == i)),
              personGroup := db.personGroup.filter (fun l => !(l.2 == i)),
              groupBook := db.groupBook.filter (fun l => !(l.1 == i)) }
  | .book =>
    { db with books := db.books.filter (fun r => !(r.1 == i)),
              personBook := db.personBook.filter (fun l => !(l.2 == i)),
              groupBook := db.groupBook.filter (fun l => !(l.2 == i)) }

/-- Handler `OhMyRestRouter.delete`: `self.model[id].delete()` — `notFound`
when the id is absent, otherwise the entity and its memberships are removed;
the handler returns no payload (the Python function body ends without a
`return`), modelled as a unit success. -/
def deleteEntity (db : DB) (t : Table) (i : Nat) : Except ErrK (DB × Unit) :=
  if rowExists db t i then .ok (removeEntity db t i, ())
  else .error .notFound

/-- Python truthiness of an optional query-parameter string: `None` and the
empty string are falsy. -/
def pyTruthy : Option String → Bool
  | none => false
  | some s => !(s == "")

/-- Serialization used by both query endpoints for each matching Person:
`person.to_dict(with_collections=True)` (no `my_dict` here either). -/
def serializePersonRow (db : DB) (r : Nat × PersonRec) : PVal :=
  .vdict (to_dict db .person r.1 true)

/-- Handler `find_by_name`: `assert fname or lname` (an `AssertionError`,
modelled `badRequest`) under Python truthiness, then a conjunctive exact-match
filter applied for whichever of the two parameters is truthy. -/
def find_by_name (db : DB) (fname lname : Option String) :
    Except ErrK (List PVal) :=
  if !(pyTruthy fname || pyTruthy lname) then .error .badRequest
  else
    let q1 := if pyTruthy fname then
        db.persons.filter (fun r => some r.2.fname == fname)
      else db.persons
    let q2 := if pyTruthy lname then
        q1.filter (fun r => some r.2.lname == lname)
      else q1
    .ok (q2.map (serializePersonRow db))

/-- The claim's reading of FindByName, written from the spec's words for the
refinement comparison: it fails only when neither parameter is supplied, and
filters by exact match on each supplied parameter, the empty string included. -/
def find_by_name_claimed (db : DB) (fname lname : Option String) :
    Except ErrK (List PVal) :=
  match fname, lname with
  | none, none => .error .badRequest
  | _, _ =>
    let q1 : List (Nat × PersonRec) := match fname with
      | some f => db.persons.filter (fun r => r.2.fname == f)
      | none => db.persons
    let q2 : List (Nat × PersonRec) := match lname with
      | some l => q1.filter (fun r => r.2.lname == l)
      | none => q1
    .ok (q2.map (serializePersonRow db))

/-- Handler `find_by_email`: `request.GET['email']` (`KeyError`, modelled
`badRequest`, when the parameter is absent), then the Persons whose `emails`
JSON list contains the literal string (`email in p.emails`). -/
def find_by_email (db : DB) (email : Option String) : Except ErrK (List PVal) :=
  match email with
  | none => .error .badRequest
  | some e =>
    .ok ((db.persons.filter (fun r => r.2.emails.contains e)).map
      (serializePersonRow db))

/-- HTTP response: a status code and a JSON body. -/
structure HttpResponse where
  status : Nat
  body : PVal

/-- An unhandled Python exception as the middleware sees it: its message
(`str(ex)`) and the traceback `traceback.format_exc` renders. -/
structure Failure where
  message : String
  trace : String

/-- `json_error` of `error_middleware`: a JSON body with the message under
the `error` key and fixed status 500. -/
def json_error (message : String) : HttpResponse :=
  { status := 500, body := .vdict [("error", .vstr message)] }

/-- `middleware_handler` of `error_middleware`: return the handler's response
untouched, or catch the exception, log the traceback (second component: the
emitted log lines) and answer with `json_error(str(ex))`. -/
def middleware_handler (h : Except Failure HttpResponse) :
    HttpResponse × List String :=
  match h with
  | .ok resp => (resp, [])
  | .error ex =>
    (json_error ex.message, ["error while serving request:\n" ++ ex.trace])

/-- A path segment matching the route fragment declared with the regex \d+. -/
def isDigitSeg (s : String) : Bool :=
  !(s == "") && s.toList.all (fun c => c.isDigit)

/-- A path segment matching the route fragment declared with the regex
[a-z]+ (the `field` slot of the add route). -/
def isLowerAlphaSeg (s : String) : Bool :=
  !(s == "") && s.toList.all (fun c => 'a' ≤ c && c ≤ 'z')

/-- Matching of the four routes `OhMyRestRouter.__init__` registers for a
router named `name`, against a request method and a path split into
segments: GET name/id, PUT name/id/addto/field (field constrained to
[a-z]+), PUT name, DELETE name/id. -/
def routeMatches (method name : String) (segs : List String) : Bool :=
  match segs with
  | [n, idSeg] =>
    (method == "GET" || method == "DELETE") && n == name && isDigitSeg idSeg
  | [n, idSeg, mid, fieldSeg] =>
    method == "PUT" && n == name && isDigitSeg idSeg && mid == "addto" &&
      isLowerAlphaSeg fieldSeg
  | [n] => method == "PUT" && n == name
  | _ => false

mutual

/-- Fuel-indexed variant of `my_dict`, consuming one unit of fuel per
recursive call exactly where the Python function recurses (one stack frame
per value level); `none` means the fuel — the recursion-depth budget — ran
out. Used to state that the recursion of `my_dict` terminates within a depth
bounded by the size of its argument. -/
def my_dictF (db : DB) : Nat → PVal → Option PVal
  | 0, _ => none
  | Nat.succ n, v =>
    match v with
    | .entity t i => some (.vdict (to_dict db t i false))
    | .vlist xs => (my_dictFList db n xs).map PVal.vlist
    | .vdict kvs => (my_dictFPairs db n kvs).map PVal.vdict
    | .vstr s => some (.vstr s)
    | .vint k => some (.vint k)
    | .vnull => some .vnull

/-- Fuel-indexed elementwise serialization of a list. -/
def my_dictFList (db : DB) : Nat → List PVal → Option (List PVal)
  | _, [] => some []
  | n, x :: xs => do
    let y ← my_dictF db n x
    let ys ← my_dictFList db n xs
    some (y :: ys)

/-- Fuel-indexed valuewise serialization of a dict. -/
def my_dictFPairs (db : DB) : Nat → List (String × PVal) →
    Option (List (String × PVal))
  | _, [] => some []
  | n, (k, v) :: kvs => do
    let y ← my_dictF db n v
    let ys ← my_dictFPairs db n kvs
    some ((k, y) :: ys)

end

/-- Invariant the relational store maintains for the three link tables: a
many-to-many row is never duplicated (each link table's primary key is the
pair of ids). -/
def WF (db : DB) : Prop :=
  db.personGroup.Nodup ∧ db.personBook.Nodup ∧ db.groupBook.Nodup

/-- Entity `i` of type `t` participates in no relationship membership: no
link-table row references it on its side of the relation. -/
def noMemberships (db : DB) : Table → Nat → Prop
  | .person, i => (∀ l ∈ db.personGroup, l.1 ≠ i) ∧ (∀ l ∈ db.personBook, l.1 ≠ i)
  | .group, g => (∀ l ∈ db.personGroup, l.2 ≠ g) ∧ (∀ l ∈ db.groupBook, l.1 ≠ g)
  | .book, b => (∀ l ∈ db.personBook, l.2 ≠ b) ∧ (∀ l ∈ db.groupBook, l.2 ≠ b)

/-- Concrete store with no relationships yet: Person 1 (Ada Lovelace), Group 1
(Mathematicians), AddressBook 1 (Friends). -/
def dbA : DB :=
  { persons := [(1, ⟨"Ada", "Lovelace", ["a@b.com"]⟩)],
    groups := [(1, ⟨"Mathematicians"⟩)],
    books := [(1, ⟨"Friends"⟩)],
    personGroup := [], personBook := [], groupBook := [],
    nextPerson := 2, nextGroup := 2, nextBook := 2 }

/-- The store `dbA` after `AddToCollection` put Person 1 into AddressBook 1's
`people`. -/
def dbB : DB := { dbA with personBook := [(1, 1)] }

/-- The store `dbB` after `AddToCollection` put Group 1 into AddressBook 1's
`groups`. -/
def db1 : DB := { dbB with groupBook := [(1, 1)] }

/-- Completeness of the fueled serializer: any fuel bounding the size of the
value suffices, and the fueled run agrees with `my_dict`. -/
theorem my_dictF_complete (db : DB) :
    ∀ n, (∀ v : PVal, sizeOf v ≤ n → my_dictF db n v = some (my_dict db v))
      ∧ (∀ xs : List PVal, sizeOf xs ≤ n →
          my_dictFList db n xs = some (my_dictList db xs))
      ∧ (∀ kvs : List (String × PVal), sizeOf kvs ≤ n →
          my_dictFPairs db n kvs = some (my_dictPairs db kvs)) := by
  intro n
  induction n with
  | zero =>
    refine ⟨fun v hv => absurd hv ?_, fun xs hxs => absurd hxs ?_,
      fun kvs hkvs => absurd hkvs ?_⟩
    · cases v <;> simp
    · cases xs <;> simp
    · cases kvs <;> simp
  | succ m ih =>
    obtain ⟨ihv, ihl, ihp⟩ := ih
    have hv : ∀ v : PVal, sizeOf v ≤ m + 1 →
        my_dictF db (m + 1) v = some (my_dict db v) := by
      intro v hsz
      cases v with
      | entity t i => simp [my_dictF, my_dict]
      | vlist xs =>
        have hxs : sizeOf xs ≤ m := by simp at hsz; omega
        simp [my_dictF, my_dict, ihl xs hxs]
      | vdict kvs =>
        have hkvs : sizeOf kvs ≤ m := by simp at hsz; omega
        simp [my_dictF, my_dict, ihp kvs hkvs]
      | vstr s => simp [my_dictF, my_dict]
      | vint k => simp [my_dictF, my_dict]
      | vnull => simp [my_dictF, my_dict]
    have hl : ∀ xs : List PVal, sizeOf xs ≤ m + 1 →
        my_dictFList db (m + 1) xs = some (my_dictList db xs) := by
      intro xs
      induction xs with
      | nil => intro _; simp [my_dictFList, my_dictList]
      | cons x tl ihtl =>
        intro hsz
        have hx : sizeOf x ≤ m + 1 := by simp at hsz; omega
        have ht : sizeOf tl ≤ m + 1 := by simp at hsz; omega
        simp [my_dictFList, my_dictList, hv x hx, ihtl ht]
    have hp : ∀ kvs : List (String × PVal), sizeOf kvs ≤ m + 1 →
        my_dictFPairs db (m + 1) kvs = some (my_dictPairs db kvs) := by
      intro kvs
      induction kvs with
      | nil => intro _; simp [my_dictFPairs, my_dictPairs]
      | cons kv tl ihtl =>
        intro hsz
        obtain ⟨k, v⟩ := kv
        have hx : sizeOf v ≤ m + 1 := by simp at hsz; omega
        have ht : sizeOf tl ≤ m + 1 := by simp at hsz; omega
        simp [my_dictFPairs, my_dictPairs, hv v hx, ihtl ht]
    exact ⟨hv, hl, hp⟩

/-- C9: the serializer `my_dict` terminates on every finite input — a
recursion-depth budget of the size of the value always suffices, for any
store, including stores whose link tables form cycles
(Person↔Group↔AddressBook) — because the entity branch returns the entity's
scalar-field dictionary (`to_dict` without collections) without recursing
into it, and recursion descends only into the structurally smaller elements
of lists and dicts; on non-entity, non-list, non-dict values it is the
identity. -/
theorem C9_my_dict_terminates (db : DB) (v : PVal) :
    my_dictF db (sizeOf v) v = some (my_dict db v)
    ∧ (∀ t i, my_dict db (.entity t i) = .vdict (to_dict db t i false))
    ∧ (∀ s, my_dict db (.vstr s) = .vstr s)
    ∧ (∀ k, my_dict db (.vint k) = .vint k)
    ∧ my_dict db .vnull = .vnull := by
  refine ⟨(my_dictF_complete db (sizeOf v)).1 v le_rfl, ?_, ?_, ?_, ?_⟩ <;>
    intros <;> rfl

/-- C1: evaluated on the round-trip scenario of the spec — a fresh
AddressBook that had one Person and one Group added via AddToCollection —
both the AddToCollection responses and the subsequent Get response carry the
`people` and `groups` collections as bare primary keys (`vint 1`), not as
expanded objects: `to_dict(with_collections=True)` renders related entities
by primary key, so `my_dict` never receives an entity instance to expand. -/
theorem C1_round_trip_shows_bare_ids :
    addToCollection dbA .book 1 "people" ⟨some 1⟩ =
      .ok (dbB, .vdict [("id", .vint 1), ("name", .vstr "Friends"),
        ("people", .vlist [.vint 1]), ("groups", .vlist [])])
    ∧ addToCollection dbB .book 1 "groups" ⟨some 1⟩ =
      .ok (db1, .vdict [("id", .vint 1), ("name", .vstr "Friends"),
        ("people", .vlist [.vint 1]), ("groups", .vlist [.vint 1])])
    ∧ getEntity db1 .book 1 =
      .ok (.vdict [("id", .vint 1), ("name", .vstr "Friends"),
        ("people", .vlist [.vint 1]), ("groups", .vlist [.vint 1])]) :=
  ⟨rfl, rfl, rfl⟩

/-- C10: `address_books` is a declared relationship field of Person (and of
Group), yet the add route's field slot admits only segments made of the
lowercase letters a–z, which `address_books` — underscore included — fails;
hence no registered route matches a request whose path ends in
`addto/address_books`, whatever the method, router name and id segment. -/
theorem C10_address_books_unroutable (method name n idSeg : String) :
    (setFields .person).lookup "address_books" = some .book
    ∧ (setFields .group).lookup "address_books" = some .book
    ∧ isLowerAlphaSeg "address_books" = false
    ∧ routeMatches method name [n, idSeg, "addto", "address_books"] = false := by
  have hfield : isLowerAlphaSeg "address_books" = false := by decide
  refine ⟨rfl, rfl, hfield, ?_⟩
  simp [routeMatches, hfield]

/-- C8: the middleware passes a successful response through untouched and
converts any failure into the JSON body with the failure's message under the
`error` key and fixed status 500, logging the diagnostic traceback; the
response is a function of the message alone, so the trace never reaches the
response body. -/
theorem C8_error_envelope (h : Except Failure HttpResponse) :
    (∀ resp, h = .ok resp → middleware_handler h = (resp, []))
    ∧ (∀ ex, h = .error ex →
        middleware_handler h =
          (⟨500, .vdict [("error", .vstr ex.message)]⟩,
            ["error while serving request:\n" ++ ex.trace])
        ∧ (∀ ex' : Failure, ex'.message = ex.message →
            (middleware_handler (.error ex')).1 = (middleware_handler h).1)) := by
  constructor
  · rintro resp rfl; rfl
  · rintro ex rfl
    refine ⟨rfl, ?_⟩
    rintro ex' hm
    simp [middleware_handler, json_error, hm]

/-- Witness for C8 at a concrete failure. -/
theorem C8_error_envelope_witness :
    middleware_handler (.error ⟨"boom", "Traceback: secret frames"⟩) =
      (⟨500, .vdict [("error", .vstr "boom")]⟩,
        ["error while serving request:\n" ++ "Traceback: secret frames"]) :=
  ((C8_error_envelope (.error ⟨"boom", "Traceback: secret frames"⟩)).2
    ⟨"boom", "Traceback: secret frames"⟩ rfl).1

/-- C7: FindByEmail answers `badRequest` exactly when the `email` parameter
is absent, and otherwise returns the serialization of exactly those stored
Persons whose `emails` list contains the given string literally — membership
is string equality, hence case-sensitive and unnormalized. -/
theorem C7_find_by_email (db : DB) (email : Option String) :
    (email = none → find_by_email db email = .error .badRequest)
    ∧ (∀ e, email = some e →
        ∃ rs : List (Nat × PersonRec),
          find_by_email db email = .ok (rs.map (serializePersonRow db))
          ∧ ∀ r, r ∈ rs ↔ r ∈ db.persons ∧ e ∈ r.2.emails) := by
  constructor
  · rintro rfl; rfl
  · rintro e rfl
    refine ⟨db.persons.filter (fun r => r.2.emails.contains e), rfl, ?_⟩
    intro r
    simp [List.mem_filter]

/-- Witness for C7: the missing-parameter failure and a concrete exact-match
query against `db1`. -/
theorem C7_find_by_email_witness :
    find_by_email db1 none = .error .badRequest
    ∧ ∃ rs : List (Nat × PersonRec),
        find_by_email db1 (some "a@b.com") = .ok (rs.map (serializePersonRow db1))
      ∧ ∀ r, r ∈ rs ↔ r ∈ db1.persons ∧ "a@b.com" ∈ r.2.emails :=
  ⟨(C7_find_by_email db1 none).1 rfl,
    (C7_find_by_email db1 (some "a@b.com")).2 "a@b.com" rfl⟩

/-- After filtering out the rows keyed by `i`, looking up `i` fails. -/
theorem lookupRow_filter_self {α : Type} (rows : List (Nat × α)) (i : Nat) :
    lookupRow (rows.filter (fun r => !(r.1 == i))) i = none := by
  have hfind : (rows.filter (fun r => !(r.1 == i))).find?
      (fun r => r.1 == i) = none := by
    rw [List.find?_eq_none]
    intro x hx
    have h2 := (List.mem_filter.mp hx).2
    simpa using h2
  simp [lookupRow, hfind]

/-- C5: Delete answers `notFound` exactly when the id does not exist; on an
existing id it succeeds with an empty response, removing the row — so a Get
on the same id now fails with `notFound` — and clearing every link-table row
that referenced the entity (its relationship memberships). -/
theorem C5_delete (db : DB) (t : Table) (i : Nat) :
    (rowExists db t i = false → deleteEntity db t i = .error .notFound)
    ∧ (rowExists db t i = true →
        deleteEntity db t i = .ok (removeEntity db t i, ())
        ∧ rowExists (removeEntity db t i) t i = false
        ∧ getEntity (removeEntity db t i) t i = .error .notFound
        ∧ noMemberships (removeEntity db t i) t i) := by
  constructor
  · intro h; simp [deleteEntity, h]
  · intro h
    have hgone : rowExists (removeEntity db t i) t i = false := by
      cases t <;>
        simp [removeEntity, rowExists, lookupRow_filter_self]
    refine ⟨by simp [deleteEntity, h], hgone, by simp [getEntity, hgone], ?_⟩
    cases t <;>
      refine ⟨fun l hl => ?_, fun l hl => ?_⟩ <;>
      · have h2 := (List.mem_filter.mp hl).2
        simpa using h2

/-- Witness for C5: deleting Person 1 of `db1` succeeds, leaves no row and no
membership behind, the subsequent Get fails, and deleting a missing id fails. -/
theorem C5_delete_witness :
    (deleteEntity db1 .person 1 = .ok (removeEntity db1 .person 1, ())
      ∧ rowExists (removeEntity db1 .person 1) .person 1 = false
      ∧ getEntity (removeEntity db1 .person 1) .person 1 = .error .notFound
      ∧ noMemberships (removeEntity db1 .person 1) .person 1)
    ∧ deleteEntity db1 .person 99 = .error .notFound :=
  ⟨(C5_delete db1 .person 1).2 rfl, (C5_delete db1 .person 99).1 rfl⟩

/-- C4: AddToCollection fails with `invalidField` whenever the named field is
not a declared multi-valued relationship field of the entity type, fails with
`notFound` whenever the referenced item id does not exist in the related
entity's table, and whenever it fails the session rolls back, so the parent's
collection — like the whole store — is left unchanged. -/
theorem C4_add_failures (db : DB) (t : Table) (i : Nat) (field : String)
    (body : AddBody) :
    ((setFields t).lookup field = none →
      addToCollection db t i field body = .error .invalidField)
    ∧ (∀ itemT itemId, (setFields t).lookup field = some itemT →
        body.id = some itemId → rowExists db itemT itemId = false →
        addToCollection db t i field body = .error .notFound)
    ∧ ((addToCollection db t i field body).isOk = false →
        (runSession db (addToCollection db t i field body)).1 = db
        ∧ collectionOf (runSession db (addToCollection db t i field body)).1
            t i field = collectionOf db t i field) := by
  refine ⟨?_, ?_, ?_⟩
  · intro h; simp [addToCollection, h]
  · intro itemT itemId hf hb hi
    cases hp : rowExists db t i <;>
      simp [addToCollection, hf, hb, hp, hi]
  · intro hfail
    cases hres : addToCollection db t i field body with
    | ok p => rw [hres] at hfail; simp [Except.isOk, Except.toBool] at hfail
    | error e => simp [runSession, hres]

/-- Witness for C4 at concrete inputs: a non-relationship field name fails
with `invalidField`, a missing item id fails with `notFound`, and the store
and the parent's collection survive unchanged. -/
theorem C4_add_failures_witness :
    addToCollection db1 .person 1 "fname" ⟨some 1⟩ = .error .invalidField
    ∧ addToCollection db1 .person 1 "groups" ⟨some 99⟩ = .error .notFound
    ∧ (runSession db1 (addToCollection db1 .person 1 "groups" ⟨some 99⟩)).1 = db1
    ∧ collectionOf (runSession db1
        (addToCollection db1 .person 1 "groups" ⟨some 99⟩)).1 .person 1 "groups"
        = collectionOf db1 .person 1 "groups" :=
  ⟨(C4_add_failures db1 .person 1 "fname" ⟨some 1⟩).1 rfl,
    (C4_add_failures db1 .person 1 "groups" ⟨some 99⟩).2.1 .group 99 rfl rfl rfl,
    ((C4_add_failures db1 .person 1 "groups" ⟨some 99⟩).2.2 rfl).1,
    ((C4_add_failures db1 .person 1 "groups" ⟨some 99⟩).2.2 rfl).2⟩

/-- Validation of a Person Create never leaves the error constructor
`validationError`: whichever constraint fails, the raised failure is the
validation one. -/
theorem createPerson_fail_shape (db : DB) (b : PersonBody)
    (h : (createPerson db b).isOk = false) :
    createPerson db b = .error .validationError := by
  obtain ⟨bf, bl, be⟩ := b
  cases bf <;> cases bl <;> cases be <;>
    revert h <;>
    simp only [createPerson]
  all_goals try (intro h; trivial)
  split_ifs <;> simp [Except.isOk, Except.toBool]

/-- C2: a Person Create succeeds exactly when every constraint holds —
names present, non-empty and within 255 characters, the (fname, lname) pair
fresh, and `emails` present, a list of 1 to 10 elements each passing the
syntactic email check; in particular a missing, non-list, too-short,
too-long or ill-elemented `emails` value refutes the constraints — and any
failing Create raises `validationError` with the session rolled back, so
nothing is persisted. -/
theorem C2_create_person (db : DB) (b : PersonBody) :
    ((createPerson db b).isOk = true ↔ personConstraintsOk db b = true)
    ∧ (b.emails = none → personConstraintsOk db b = false)
    ∧ (∀ xs, b.emails = some (.vlist xs) →
        (xs.length < 1 ∨ 10 < xs.length) → personConstraintsOk db b = false)
    ∧ (∀ xs x, b.emails = some (.vlist xs) → x ∈ xs →
        emailElemOk x = false → personConstraintsOk db b = false)
    ∧ (∀ s, b.emails = some (.vstr s) → personConstraintsOk db b = false)
    ∧ (personConstraintsOk db b = false →
        createPerson db b = .error .validationError
        ∧ (runSession db (createPerson db b)).1 = db) := by
  have hmain : (createPerson db b).isOk = personConstraintsOk db b := by
    obtain ⟨bf, bl, be⟩ := b
    cases bf <;> cases bl <;> cases be
    all_goals simp only [createPerson, personConstraintsOk]
    all_goals try (simp [Except.isOk, Except.toBool]; done)
    split_ifs with h1 h2 h3 h4 <;>
      simp_all [Except.isOk, Except.toBool, List.any_eq_true]
    · intro hb hc _ _ _
      exfalso
      rcases h1 with h | h
      · exact hb h
      · omega
    · intro hb hc _
      exfalso
      rcases h2 with h | h
      · exact hb h
      · omega
    · exact h4
  refine ⟨by rw [hmain], ?_, ?_, ?_, ?_, ?_⟩
  · intro h
    simp [personConstraintsOk, h]
  · intro xs h hlen
    have hv : validate_emails (.vlist xs) = false := by
      simp only [validate_emails]
      split_ifs with hA hB
      · rfl
      · rfl
      · exfalso
        rcases hlen with hc | hc <;> omega
    simp [personConstraintsOk, h, hv]
  · intro xs x h hx hbad
    have hv : validate_emails (.vlist xs) = false := by
      simp only [validate_emails]
      split_ifs
      · rfl
      · rfl
      · rw [Bool.eq_false_iff]
        intro hall
        rw [List.all_eq_true] at hall
        exact absurd (hall x hx) (by simp [hbad])
    simp [personConstraintsOk, h, hv]
  · intro s h
    simp [personConstraintsOk, h, validate_emails]
  · intro hbad
    have hfail : (createPerson db b).isOk = false := by rw [hmain, hbad]
    have herr := createPerson_fail_shape db b hfail
    exact ⟨herr, by simp [runSession, herr]⟩

/-- Witness for C2: on `db1`, a valid body succeeds, and a body with eleven
emails violates the constraints, fails with `validationError` and leaves the
store unchanged. -/
theorem C2_create_person_witness :
    ((createPerson db1 ⟨some "Alan", some "Turing",
        some (.vlist [.vstr "alan@turing.org"])⟩).isOk = true
      ↔ personConstraintsOk db1 ⟨some "Alan", some "Turing",
        some (.vlist [.vstr "alan@turing.org"])⟩ = true)
    ∧ (personConstraintsOk db1 ⟨some "Q", some "W",
        some (.vlist (List.replicate 11 (.vstr "a@b.com")))⟩ = false)
    ∧ createPerson db1 ⟨some "Q", some "W",
        some (.vlist (List.replicate 11 (.vstr "a@b.com")))⟩ =
      .error .validationError
    ∧ (runSession db1 (createPerson db1 ⟨some "Q", some "W",
        some (.vlist (List.replicate 11 (.vstr "a@b.com")))⟩)).1 = db1 := by
  have hlen := (C2_create_person db1 ⟨some "Q", some "W",
    some (.vlist (List.replicate 11 (.vstr "a@b.com")))⟩).2.2.1
    (List.replicate 11 (.vstr "a@b.com")) rfl (by simp)
  have hfail := (C2_create_person db1 ⟨some "Q", some "W",
    some (.vlist (List.replicate 11 (.vstr "a@b.com")))⟩).2.2.2.2.2 hlen
  exact ⟨(C2_create_person db1 ⟨some "Alan", some "Turing",
    some (.vlist [.vstr "alan@turing.org"])⟩).1, hlen, hfail.1, hfail.2⟩

/-- Refutation of C6 as stated: with `fname` set to `Ada` and `lname`
supplied as the empty string, the handler does not return the Persons
matching both parameters (there are none with an empty last name — the
claim's conjunction semantics); it ignores the falsy `lname` and returns
Ada Lovelace. -/
theorem C6_find_by_name_counterexample :
    find_by_name db1 (some "Ada") (some "") ≠
      find_by_name_claimed db1 (some "Ada") (some "") := by
  intro h
  have h1 : find_by_name db1 (some "Ada") (some "") =
      .ok [.vdict [("id", .vint 1), ("fname", .vstr "Ada"),
        ("lname", .vstr "Lovelace"), ("emails", .vlist [.vstr "a@b.com"]),
        ("groups", .vlist []), ("address_books", .vlist [.vint 1])]] := rfl
  have h2 : find_by_name_claimed db1 (some "Ada") (some "") = .ok [] := rfl
  rw [h1, h2] at h
  simp at h

/-- C6 (amended): FindByName fails with `badRequest` exactly when neither
parameter is supplied with a non-empty value — a parameter supplied as the
empty string is treated as absent — and otherwise returns exactly the
Persons matching each non-empty supplied parameter by exact string equality
(conjunction when both are non-empty). -/
theorem C6_find_by_name_amended (db : DB) (fname lname : Option String) :
    (find_by_name db fname lname = .error .badRequest ↔
      pyTruthy fname = false ∧ pyTruthy lname = false)
    ∧ (pyTruthy fname = true ∨ pyTruthy lname = true →
        ∃ rs : List (Nat × PersonRec),
          find_by_name db fname lname = .ok (rs.map (serializePersonRow db))
          ∧ ∀ r, r ∈ rs ↔ r ∈ db.persons
              ∧ (pyTruthy fname = true → some r.2.fname = fname)
              ∧ (pyTruthy lname = true → some r.2.lname = lname)) := by
  cases hF : pyTruthy fname <;> cases hL : pyTruthy lname
  · constructor
    · simp [find_by_name, hF, hL]
    · rintro (h | h) <;> simp_all
  · constructor
    · simp [find_by_name, hF, hL]
    · intro _
      refine ⟨db.persons.filter (fun r => some r.2.lname == lname), ?_, ?_⟩
      · simp [find_by_name, hF, hL]
      · intro r
        simp [List.mem_filter, hF, hL]
  · constructor
    · simp [find_by_name, hF, hL]
    · intro _
      refine ⟨db.persons.filter (fun r => some r.2.fname == fname), ?_, ?_⟩
      · simp [find_by_name, hF, hL]
      · intro r
        simp [List.mem_filter, hF, hL]
  · constructor
    · simp [find_by_name, hF, hL]
    · intro _
      refine ⟨(db.persons.filter (fun r => some r.2.fname == fname)).filter
          (fun r => some r.2.lname == lname), ?_, ?_⟩
      · simp [find_by_name, hF, hL]
      · intro r
        simp only [List.mem_filter, beq_iff_eq, and_assoc]
        tauto

/-- Witness for the amended C6: both parameters absent fail with
`badRequest`, and with only a non-empty `fname` the result is exactly the
first-name matches of `db1`, the last name unconstrained. -/
theorem C6_find_by_name_amended_witness :
    (find_by_name db1 none none = .error .badRequest ↔
      pyTruthy (none : Option String) = false
      ∧ pyTruthy (none : Option String) = false)
    ∧ ∃ rs : List (Nat × PersonRec),
        find_by_name db1 (some "Ada") none = .ok (rs.map (serializePersonRow db1))
        ∧ ∀ r, r ∈ rs ↔ r ∈ db1.persons
            ∧ (pyTruthy (some "Ada") = true → some r.2.fname = some "Ada")
            ∧ (pyTruthy (none : Option String) = true → some r.2.lname = none) :=
  ⟨(C6_find_by_name_amended db1 none none).1,
    (C6_find_by_name_amended db1 (some "Ada") none).2 (Or.inl rfl)⟩

/-- The added pair is a member of the link table after `addPair`. -/
theorem addPair_mem (links : List (Nat × Nat)) (p : Nat × Nat) :
    p ∈ addPair links p := by
  unfold addPair
  split
  · assumption
  · simp

/-- Adding a pair already present leaves the link table unchanged. -/
theorem addPair_of_mem {links : List (Nat × Nat)} {p : Nat × Nat}
    (h : p ∈ links) : addPair links p = links := by
  simp [addPair, h]

/-- A member of a duplicate-free link table occurs in it exactly once. -/
theorem count_eq_one_of_nodup_mem {p : Nat × Nat} {links : List (Nat × Nat)}
    (h : links.Nodup) (hm : p ∈ links) : links.count p = 1 := by
  induction links with
  | nil => cases hm
  | cons hd tl ih =>
    rw [List.count_cons]
    rcases List.mem_cons.mp hm with rfl | hmem
    · rw [List.count_eq_zero.mpr (List.nodup_cons.mp h).1]
      simp
    · have hne : hd ≠ p := by
        rintro rfl; exact (List.nodup_cons.mp h).1 hmem
      rw [ih (List.nodup_cons.mp h).2 hmem]
      simp [hne]

/-- In a duplicate-free link table, the added pair occurs exactly once after
`addPair`. -/
theorem count_addPair (links : List (Nat × Nat)) (p : Nat × Nat)
    (h : links.Nodup) : (addPair links p).count p = 1 := by
  unfold addPair
  split
  · exact count_eq_one_of_nodup_mem h (by assumption)
  · rw [List.count_append, List.count_eq_zero.mpr (by assumption)]
    simp

/-- Occurrences of `j` in the left-to-right collection of `i` are occurrences
of the link row `(i, j)`. -/
theorem count_colA (links : List (Nat × Nat)) (i j : Nat) :
    (colA links i).count j = links.count (i, j) := by
  induction links with
  | nil => rfl
  | cons hd tl ih =>
    obtain ⟨a, b⟩ := hd
    simp only [colA] at ih ⊢
    rw [List.filter_cons]
    by_cases ha : a = i
    · subst ha
      rw [if_pos (by simp), List.map_cons, List.count_cons, List.count_cons, ih]
      by_cases hb : b = j <;> simp [hb]
    · rw [if_neg (by simp [ha]), ih, List.count_cons]
      simp [ha]

/-- Occurrences of `j` in the right-to-left collection of `i` are occurrences
of the link row `(j, i)`. -/
theorem count_colB (links : List (Nat × Nat)) (i j : Nat) :
    (colB links i).count j = links.count (j, i) := by
  induction links with
  | nil => rfl
  | cons hd tl ih =>
    obtain ⟨a, b⟩ := hd
    simp only [colB] at ih ⊢
    rw [List.filter_cons]
    by_cases hb : b = i
    · subst hb
      rw [if_pos (by simp), List.map_cons, List.count_cons, List.count_cons, ih]
      by_cases ha : a = j <;> simp [ha]
    · rw [if_neg (by simp [hb]), ih, List.count_cons]
      simp [hb]

/-- C3: on a well-formed store, for any existing parent entity, declared
relationship field and existing item, AddToCollection succeeds; repeating
the very same AddToCollection succeeds again with the identical store and
response — the second add is a no-op, not an error — and the parent's
collection then holds exactly one occurrence of the item. -/
theorem C3_add_idempotent (db : DB) (t : Table) (i : Nat) (field : String)
    (itemT : Table) (itemId : Nat) (hwf : WF db)
    (hf : (setFields t).lookup field = some itemT)
    (hp : rowExists db t i = true) (hi : rowExists db itemT itemId = true) :
    ∃ db' r,
      addToCollection db t i field ⟨some itemId⟩ = .ok (db', r)
      ∧ addToCollection db' t i field ⟨some itemId⟩ = .ok (db', r)
      ∧ (collectionOf db' t i field).count itemId = 1 := by
  obtain ⟨h1, h2, h3⟩ := hwf
  cases t with
  | person =>
    by_cases hg : field = "groups"
    · subst hg
      have hit : Table.group = itemT := by
        simpa [setFields, List.lookup] using hf
      subst hit
      have e1 : addToCollection db .person i "groups" ⟨some itemId⟩ =
          .ok (addLink db .person "groups" i itemId,
            my_dict (addLink db .person "groups" i itemId)
              (.vdict (to_dict (addLink db .person "groups" i itemId) .person i true))) := by
        simp [addToCollection, setFields, List.lookup, hp, hi]
      have hlink : addLink db .person "groups" i itemId
          = { db with personGroup := addPair db.personGroup (i, itemId) } := by
        simp [addLink]
      have hp2 : rowExists (addLink db .person "groups" i itemId) .person i = true := by
        rw [hlink]; exact hp
      have hi2 : rowExists (addLink db .person "groups" i itemId) .group itemId = true := by
        rw [hlink]; exact hi
      have e2 : addToCollection (addLink db .person "groups" i itemId) .person i "groups" ⟨some itemId⟩ =
          .ok (addLink (addLink db .person "groups" i itemId) .person "groups" i itemId,
            my_dict (addLink (addLink db .person "groups" i itemId) .person "groups" i itemId)
              (.vdict (to_dict (addLink (addLink db .person "groups" i itemId) .person "groups" i itemId)
                .person i true))) := by
        simp [addToCollection, setFields, List.lookup, hp2, hi2]
      have hsame : addLink (addLink db .person "groups" i itemId) .person "groups" i itemId = addLink db .person "groups" i itemId := by
        rw [hlink]
        simp [addLink, addPair_of_mem (addPair_mem _ _)]
      rw [hsame] at e2
      have hc : (collectionOf (addLink db .person "groups" i itemId) .person i "groups").count itemId = 1 := by
        rw [hlink]
        show (colA (addPair db.personGroup (i, itemId)) i).count itemId = 1
        rw [count_colA]
        exact count_addPair _ _ h1
      exact ⟨_, _, e1, e2, hc⟩
    · by_cases hab : field = "address_books"
      · subst hab
        have hit : Table.book = itemT := by
          simpa [setFields, List.lookup] using hf
        subst hit
        have e1 : addToCollection db .person i "address_books" ⟨some itemId⟩ =
            .ok (addLink db .person "address_books" i itemId,
              my_dict (addLink db .person "address_books" i itemId)
                (.vdict (to_dict (addLink db .person "address_books" i itemId) .person i true))) := by
          simp [addToCollection, setFields, List.lookup, hp, hi]
        have hlink : addLink db .person "address_books" i itemId
            = { db with personBook := addPair db.personBook (i, itemId) } := by
          simp [addLink]
        have hp2 : rowExists (addLink db .person "address_books" i itemId) .person i = true := by
          rw [hlink]; exact hp
        have hi2 : rowExists (addLink db .person "address_books" i itemId) .book itemId = true := by
          rw [hlink]; exact hi
        have e2 : addToCollection (addLink db .person "address_books" i itemId) .person i "address_books" ⟨some itemId⟩ =
            .ok (addLink (addLink db .person "address_books" i itemId) .person "address_books" i itemId,
              my_dict (addLink (addLink db .person "address_books" i itemId) .person "address_books" i itemId)
                (.vdict (to_dict (addLink (addLink db .person "address_books" i itemId) .person "address_books" i itemId)
                  .person i true))) := by
          simp [addToCollection, setFields, List.lookup, hp2, hi2]
        have hsame : addLink (addLink db .person "address_books" i itemId) .person "address_books" i itemId = addLink db .person "address_books" i itemId := by
          rw [hlink]
          simp [addLink, addPair_of_mem (addPair_mem _ _)]
        rw [hsame] at e2
        have hc : (collectionOf (addLink db .person "address_books" i itemId) .person i "address_books").count itemId = 1 := by
          rw [hlink]
          show (colA (addPair db.personBook (i, itemId)) i).count itemId = 1
          rw [count_colA]
          exact count_addPair _ _ h2
        exact ⟨_, _, e1, e2, hc⟩
      · exfalso
        have hg2 : (field == "groups") = false := beq_eq_false_iff_ne.mpr hg
        have hab2 : (field == "address_books") = false :=
          beq_eq_false_iff_ne.mpr hab
        simp [setFields, List.lookup, hg2, hab2] at hf
  | group =>
    by_cases hg : field = "members"
    · subst hg
      have hit : Table.person = itemT := by
        simpa [setFields, List.lookup] using hf
      subst hit
      have e1 : addToCollection db .group i "members" ⟨some itemId⟩ =
          .ok (addLink db .group "members" i itemId,
            my_dict (addLink db .group "members" i itemId)
              (.vdict (to_dict (addLink db .group "members" i itemId) .group i true))) := by
        simp [addToCollection, setFields, List.lookup, hp, hi]
      have hlink : addLink db .group "members" i itemId
          = { db with personGroup := addPair db.personGroup (itemId, i) } := by
        simp [addLink]
      have hp2 : rowExists (addLink db .group "members" i itemId) .group i = true := by
        rw [hlink]; exact hp
      have hi2 : rowExists (addLink db .group "members" i itemId) .person itemId = true := by
        rw [hlink]; exact hi
      have e2 : addToCollection (addLink db .group "members" i itemId) .group i "members" ⟨some itemId⟩ =
          .ok (addLink (addLink db .group "members" i itemId) .group "members" i itemId,
            my_dict (addLink (addLink db .group "members" i itemId) .group "members" i itemId)
              (.vdict (to_dict (addLink (addLink db .group "members" i itemId) .group "members" i itemId)
                .group i true))) := by
        simp [addToCollection, setFields, List.lookup, hp2, hi2]
      have hsame : addLink (addLink db .group "members" i itemId) .group "members" i itemId = addLink db .group "members" i itemId := by
        rw [hlink]
        simp [addLink, addPair_of_mem (addPair_mem _ _)]
      rw [hsame] at e2
      have hc : (collectionOf (addLink db .group "members" i itemId) .group i "members").count itemId = 1 := by
        rw [hlink]
        show (colB (addPair db.personGroup (itemId, i)) i).count itemId = 1
        rw [count_colB]
        exact count_addPair _ _ h1
      exact ⟨_, _, e1, e2, hc⟩
    · by_cases hab : field = "address_books"
      · subst hab
        have hit : Table.book = itemT := by
          simpa [setFields, List.lookup] using hf
        subst hit
        have e1 : addToCollection db .group i "address_books" ⟨some itemId⟩ =
            .ok (addLink db .group "address_books" i itemId,
              my_dict (addLink db .group "address_books" i itemId)
                (.vdict (to_dict (addLink db .group "address_books" i itemId) .group i true))) := by
          simp [addToCollection, setFields, List.lookup, hp, hi]
        have hlink : addLink db .group "address_books" i itemId
            = { db with groupBook := addPair db.groupBook (i, itemId) } := by
          simp [addLink]
        have hp2 : rowExists (addLink db .group "address_books" i itemId) .group i = true := by
          rw [hlink]; exact hp
        have hi2 : rowExists (addLink db .group "address_books" i itemId) .book itemId = true := by
          rw [hlink]; exact hi
        have e2 : addToCollection (addLink db .group "address_books" i itemId) .group i "address_books" ⟨some itemId⟩ =
            .ok (addLink (addLink db .group "address_books" i itemId) .group "address_books" i itemId,
              my_dict (addLink (addLink db .group "address_books" i itemId) .group "address_books" i itemId)
                (.vdict (to_dict (addLink (addLink db .group "address_books" i itemId) .group "address_books" i itemId)
                  .group i true))) := by
          simp [addToCollection, setFields, List.lookup, hp2, hi2]
        have hsame : addLink (addLink db .group "address_books" i itemId) .group "address_books" i itemId = addLink db .group "address_books" i itemId := by
          rw [hlink]
          simp [addLink, addPair_of_mem (addPair_mem _ _)]
        rw [hsame] at e2
        have hc : (collectionOf (addLink db .group "address_books" i itemId) .group i "address_books").count itemId = 1 := by
          rw [hlink]
          show (colA (addPair db.groupBook (i, itemId)) i).count itemId = 1
          rw [count_colA]
          exact count_addPair _ _ h3
        exact ⟨_, _, e1, e2, hc⟩
      · exfalso
        have hg2 : (field == "members") = false := beq_eq_false_iff_ne.mpr hg
        have hab2 : (field == "address_books") = false :=
          beq_eq_false_iff_ne.mpr hab
        simp [setFields, List.lookup, hg2, hab2] at hf
  | book =>
    by_cases hg : field = "people"
    · subst hg
      have hit : Table.person = itemT := by
        simpa [setFields, List.lookup] using hf
      subst hit
      have e1 : addToCollection db .book i "people" ⟨some itemId⟩ =
          .ok (addLink db .book "people" i itemId,
            my_dict (addLink db .book "people" i itemId)
              (.vdict (to_dict (addLink db .book "people" i itemId) .book i true))) := by
        simp [addToCollection, setFields, List.lookup, hp, hi]
      have hlink : addLink db .book "people" i itemId
          = { db with personBook := addPair db.personBook (itemId, i) } := by
        simp [addLink]
      have hp2 : rowExists (addLink db .book "people" i itemId) .book i = true := by
        rw [hlink]; exact hp
      have hi2 : rowExists (addLink db .book "people" i itemId) .person itemId = true := by
        rw [hlink]; exact hi
      have e2 : addToCollection (addLink db .book "people" i itemId) .book i "people" ⟨some itemId⟩ =
          .ok (addLink (addLink db .book "people" i itemId) .book "people" i itemId,
            my_dict (addLink (addLink db .book "people" i itemId) .book "people" i itemId)
              (.vdict (to_dict (addLink (addLink db .book "people" i itemId) .book "people" i itemId)
                .book i true))) := by
        simp [addToCollection, setFields, List.lookup, hp2, hi2]
      have hsame : addLink (addLink db .book "people" i itemId) .book "people" i itemId = addLink db .book "people" i itemId := by
        rw [hlink]
        simp [addLink, addPair_of_mem (addPair_mem _ _)]
      rw [hsame] at e2
      have hc : (collectionOf (addLink db .book "people" i itemId) .book i "people").count itemId = 1 := by
        rw [hlink]
        show (colB (addPair db.personBook (itemId, i)) i).count itemId = 1
        rw [count_colB]
        exact count_addPair _ _ h2
      exact ⟨_, _, e1, e2, hc⟩
    · by_cases hab : field = "groups"
      · subst hab
        have hit : Table.group = itemT := by
          simpa [setFields, List.lookup] using hf
        subst hit
        have e1 : addToCollection db .book i "groups" ⟨some itemId⟩ =
            .ok (addLink db .book "groups" i itemId,
              my_dict (addLink db .book "groups" i itemId)
                (.vdict (to_dict (addLink db .book "groups" i itemId) .book i true))) := by
          simp [addToCollection, setFields, List.lookup, hp, hi]
        have hlink : addLink db .book "groups" i itemId
            = { db with groupBook := addPair db.groupBook (itemId, i) } := by
          simp [addLink]
        have hp2 : rowExists (addLink db .book "groups" i itemId) .book i = true := by
          rw [hlink]; exact hp
        have hi2 : rowExists (addLink db .book "groups" i itemId) .group itemId = true := by
          rw [hlink]; exact hi
        have e2 : addToCollection (addLink db .book "groups" i itemId) .book i "groups" ⟨some itemId⟩ =
            .ok (addLink (addLink db .book "groups" i itemId) .book "groups" i itemId,
              my_dict (addLink (addLink db .book "groups" i itemId) .book "groups" i itemId)
                (.vdict (to_dict (addLink (addLink db .book "groups" i itemId) .book "groups" i itemId)
                  .book i true))) := by
          simp [addToCollection, setFields, List.lookup, hp2, hi2]
        have hsame : addLink (addLink db .book "groups" i itemId) .book "groups" i itemId = addLink db .book "groups" i itemId := by
          rw [hlink]
          simp [addLink, addPair_of_mem (addPair_mem _ _)]
        rw [hsame] at e2
        have hc : (collectionOf (addLink db .book "groups" i itemId) .book i "groups").count itemId = 1 := by
          rw [hlink]
          show (colB (addPair db.groupBook (itemId, i)) i).count itemId = 1
          rw [count_colB]
          exact count_addPair _ _ h3
        exact ⟨_, _, e1, e2, hc⟩
      · exfalso
        have hg2 : (field == "people") = false := beq_eq_false_iff_ne.mpr hg
        have hab2 : (field == "groups") = false := beq_eq_false_iff_ne.mpr hab
        simp [setFields, List.lookup, hg2, hab2] at hf

/-- Witness for C3: adding Group 1 to Person 1's `groups` twice on `db1`. -/
theorem C3_add_idempotent_witness : ∃ db' r,
    addToCollection db1 .person 1 "groups" ⟨some 1⟩ = .ok (db', r)
    ∧ addToCollection db' .person 1 "groups" ⟨some 1⟩ = .ok (db', r)
    ∧ (collectionOf db' .person 1 "groups").count 1 = 1 :=
  C3_add_idempotent db1 .person 1 "groups" .group 1
    ⟨by decide, by decide, by decide⟩ rfl rfl rfl

end Server
